import Mathlib

/-!
# Verification of the price-conversion userscripts

This file gives a shallow embedding, in Lean 4, of the core logic of the
three userscripts in this repository:

* `src/unnamed/part_000` — the realestate.co.nz NZD/week → USD/month script
  (fast path on `data-test="price-display__price-method"` containers, a
  single-text-node pass, a split-element pass, a cached exchange rate, a
  debounced mutation observer and an idle-bounded fallback sweep);
* `src/realestate-aud-to-usd.user.js` and `src/unnamed/part_001` — the
  realestate.com.au AUD/week → USD/month annotation scripts.

Modelling conventions:

* JavaScript numbers are IEEE-754 doubles.  All quantities that matter to
  the claims (integer dollar amounts, exchange rates such as 0.59, the
  products `amount * 52 / 12 * rate`) are modelled as exact integers and
  rationals; an exchange rate is carried as an explicit integer pair
  `(rnum, rden)` meaning the rational `rnum / rden`, so that every
  computation in the DOM pipeline stays inside `ℤ`/`ℕ` and is evaluable by
  the kernel.  At the magnitudes appearing in the claims the double
  computations and the exact ones round to the same integers.
* Strings are `List Char`.  The regexes of the scripts are implemented as
  explicit scanners; each scanner's doc comment names the regex it embeds.
* The DOM is a first-child / next-sibling tree (constructor `Dom.elem`
  carries the `data-test="price-display__price-method"` flag and the
  `dataset.nzdConverted` flag, the only element attributes the script
  reads or writes).
* Stateful loops over live `querySelectorAll` / `TreeWalker` snapshots are
  modelled as structural recursions in document order; every place where
  the snapshot/liveness distinction could matter is discussed in the doc
  comment of the corresponding definition.
-/

/-! ## Characters and strings -/

/-- Whitespace as matched by the scripts' character classes `[\s ]`
(`part_000` line 21) and `\s`.  JavaScript `\s` already contains U+00A0, so
both classes denote the same set; we include the ASCII whitespace
characters and the no-break space (exotic Unicode spaces are omitted, they
occur nowhere in the claims). -/
def isSpaceJs (c : Char) : Bool :=
  c = ' ' || c = Char.ofNat 9 || c = Char.ofNat 10 || c = Char.ofNat 11 ||
  c = Char.ofNat 12 || c = Char.ofNat 13 || c = Char.ofNat 160

/-- Characters matched by the amount class `[\d,]` of `PRICE_REGEX` and
`PRICE_AMOUNT_REGEX` (`part_000` lines 21 and 23). -/
def isAmountChar (c : Char) : Bool :=
  c.isDigit || c = ','

/-- The qualifier literal of `PRICE_REGEX`, lower-cased. -/
def perWeekChars : List Char :=
  "per week".toList

/-- Case-insensitive test that `s` starts with the eight characters
`per week` (the `/i` flag on `PRICE_REGEX` and on the removal regexes). -/
def startsWithPerWeekCI (s : List Char) : Bool :=
  (s.take 8).map Char.toLower = perWeekChars

/-- Attempt the tail of `PRICE_REGEX = /\$([\d,]+)[\s ]*per week/i`
(`part_000` line 21) immediately after a `$`: a non-empty maximal run of
`[\d,]` (the capture group), a maximal run of whitespace, then the
case-insensitive literal `per week`.  Returns the capture group and the
suffix after the whole match.  Backtracking cannot produce any other
match here: shortening the greedy `[\d,]+` leaves the next character in
`[\d,]`, which neither `[\s ]*` nor `per week` can consume. -/
def strictAfterDollar (cs : List Char) : Option (List Char × List Char) :=
  let g := cs.takeWhile isAmountChar
  if g.isEmpty then none
  else
    let r1 := cs.drop g.length
    let ws := r1.takeWhile isSpaceJs
    let r2 := r1.drop ws.length
    if startsWithPerWeekCI r2 then some (g, r2.drop 8) else none

/-- Leftmost match of `PRICE_REGEX` in a string, as the JavaScript engine
finds it: the scan tries each position from the left and succeeds at the
first `$` from which `strictAfterDollar` matches.  Returns
`(prefix before the match, capture group, suffix after the match)`. -/
def strictScan : List Char → Option (List Char × List Char × List Char)
  | [] => none
  | c :: rest =>
    if c = '$' then
      match strictAfterDollar rest with
      | some (g, suf) => some ([], g, suf)
      | none =>
        match strictScan rest with
        | some (p, g, suf) => some (c :: p, g, suf)
        | none => none
    else
      match strictScan rest with
      | some (p, g, suf) => some (c :: p, g, suf)
      | none => none

/-- `PRICE_REGEX.test(s)` (`part_000` lines 122, 151, 156). -/
def strictTest (s : List Char) : Bool :=
  (strictScan s).isSome

/-- `s.replace(PRICE_REGEX, () => repl)` (`part_000` line 135): the
replacer is a function, so no `$`-substitution happens; the first match is
spliced out and `repl` put in its place. -/
def strictReplace (repl s : List Char) : List Char :=
  match strictScan s with
  | some (p, _, suf) => p ++ repl ++ suf
  | none => s

/-- Leftmost match of `PRICE_AMOUNT_REGEX = /\$([\d,]+)/` (`part_000`
line 23, also the inline regexes of the AUD scripts): first `$` followed
by a non-empty maximal `[\d,]` run.  Returns
`(prefix, capture group, suffix)`. -/
def amountScan : List Char → Option (List Char × List Char × List Char)
  | [] => none
  | c :: rest =>
    if c = '$' then
      let g := rest.takeWhile isAmountChar
      if g.isEmpty then
        match amountScan rest with
        | some (p, g2, suf) => some (c :: p, g2, suf)
        | none => none
      else some ([], g, rest.drop g.length)
    else
      match amountScan rest with
      | some (p, g, suf) => some (c :: p, g, suf)
      | none => none

/-- `/\$[\d,]+/.test(s)` (`part_000` line 85, AUD scripts line 93/85). -/
def amountTest (s : List Char) : Bool :=
  (amountScan s).isSome

/-- The capture group of the first `PRICE_AMOUNT_REGEX` match. -/
def amountGroup (s : List Char) : Option (List Char) :=
  match amountScan s with
  | some (_, g, _) => some g
  | none => none

/-- ECMAScript `GetSubstitution` for a replacement **string** with one
capture group, as invoked by
`priceNode.textContent.replace(PRICE_AMOUNT_REGEX, replacement)`
(`part_000` line 185 — the only `replace` call whose replacement is a
plain string rather than a function).  `g` is the capture group and
`'$' :: g` the whole match.  `$$` is a literal dollar, `$&` the whole
match, `$1` (also written `$01`) the capture group; `$n` for `n ≥ 2` does
not name an existing group and stays literal.  The before-match and
after-match forms never occur in the templates the script builds (those
contain `$` only before digits), so they fall through the literal case
like every other character. -/
def getSubst (g : List Char) : List Char → List Char
  | [] => []
  | '$' :: rest =>
    match rest with
    | '$' :: t => '$' :: getSubst g t
    | '&' :: t => ('$' :: g) ++ getSubst g t
    | '0' :: '1' :: t => g ++ getSubst g t
    | '1' :: t => g ++ getSubst g t
    | t => '$' :: getSubst g t
  | c :: rest => c :: getSubst g rest

/-- `s.replace(PRICE_AMOUNT_REGEX, tmpl)` with a plain string template
(`part_000` line 185): splice `GetSubstitution` of the template at the
first amount match. -/
def amountReplaceTmpl (tmpl s : List Char) : List Char :=
  match amountScan s with
  | some (p, g, suf) => p ++ getSubst g tmpl ++ suf
  | none => s

/-- Numeric value of a decimal digit character. -/
def digitVal (c : Char) : ℕ :=
  c.toNat - 48

/-- Value of a most-significant-first digit string. -/
def digitsToNat (ds : List Char) : ℕ :=
  ds.foldl (fun a c => 10 * a + digitVal c) 0

/-- `parseInt(group.replace(/,/g, ""), 10)` on a `PRICE_REGEX` /
`PRICE_AMOUNT_REGEX` capture group (`part_000` lines 90, 128, 175; AUD
scripts use `parseFloat`/`parseInt` on the same shape): strip the
thousands separators and read the remaining digits as an integer.  The
group consists of digits and commas, so the parse fails (JavaScript
`NaN`, modelled as `none`) exactly when no digit remains.  JavaScript
returns a double and loses precision above 2^53; the claims only involve
small amounts, where the exact value below is the value the script
computes. -/
def parseAmount (g : List Char) : Option ℕ :=
  let ds := g.filter (fun c => c ≠ ',')
  if ds.isEmpty then none else some (digitsToNat ds)

/-- Test used by the per-week cleanup loops: does the whole string match
`/^[\s ]*per week[\s ]*$/i` (`part_000` line 96) — equivalently
`/^\s*(?: \s*)?per week\s*$/i` (line 189; JavaScript `\s` contains
` `, so the two regexes denote the same language)?  Whitespace, the
case-insensitive literal `per week`, whitespace, nothing else. -/
def isPerWeekOnly (s : List Char) : Bool :=
  let t := s.dropWhile isSpaceJs
  startsWithPerWeekCI t && (t.drop 8).all isSpaceJs

/-! ## Number formatting -/

/-- Decimal digits of a natural number, most significant first. -/
def natDigits (n : ℕ) : List Char :=
  Nat.toDigits 10 n

/-- Helper for `groupDigits`: walks the reversed digit list, emitting a
comma after every third digit while more digits remain. -/
def groupRevAux : List Char → ℕ → List Char
  | [], _ => []
  | c :: rest, k =>
    if k = 2 then c :: (if rest.isEmpty then [] else ',' :: groupRevAux rest 0)
    else c :: groupRevAux rest (k + 1)

/-- Insert thousands separators into a digit string, as
`toLocaleString("en-NZ")` / `toLocaleString("en-US")` do for integers
(`part_000` lines 66, 94, 132; both locales group by threes with `,`). -/
def groupDigits (ds : List Char) : List Char :=
  (groupRevAux ds.reverse 0).reverse

/-- `n.toLocaleString("en-NZ")` / `("en-US")` for a natural number. -/
def localeNat (n : ℕ) : List Char :=
  groupDigits (natDigits n)

/-- Locale formatting of an integer (sign, then grouped digits). -/
def localeInt (n : ℤ) : List Char :=
  if n < 0 then '-' :: localeNat n.natAbs else localeNat n.natAbs

/-- `formatUsd` (`part_000` lines 65–67): `"US$" + amount.toLocaleString("en-US")`. -/
def formatUsd (n : ℤ) : List Char :=
  "US$".toList ++ localeInt n

/-- The `·` middle dot used in the rewritten price text. -/
def midDot : Char :=
  Char.ofNat 183

/-! ## The converter -/

/-- JavaScript `Math.round(num / den)` for `den > 0`: round half toward
positive infinity, i.e. `⌊num/den + 1/2⌋`.  Integer division `/` on `ℤ`
is Euclidean division, which is floor division for a positive divisor. -/
def jsRound (num den : ℤ) : ℤ :=
  (2 * num + den) / (2 * den)

/-- `nzdPerWeekToUsdPerMonth(nzd, rate)` (`part_000` lines 61–63):
`Math.round((nzd * 52) / 12 * rate)`, with the rate given as the exact
rational `rnum / rden`, so the argument of `Math.round` is the exact
rational `(nzd * 52 * rnum) / (12 * rden)`. -/
def nzdPerWeekToUsdPerMonth (nzd : ℕ) (rnum : ℤ) (rden : ℕ) : ℤ :=
  jsRound ((nzd : ℤ) * 52 * rnum) (12 * (rden : ℤ))

/-- `audPerWeekToUsdPerMonth(aud)` (`realestate-aud-to-usd.user.js`
lines 46–48): the same formula `Math.round((aud * 52) / 12 * rate)`. -/
def audPerWeekToUsdPerMonth (aud : ℕ) (rnum : ℤ) (rden : ℕ) : ℤ :=
  jsRound ((aud : ℤ) * 52 * rnum) (12 * (rden : ℤ))

/-- The converter contract as the specification words it
(`spec.md` §4.3): `round(amount * 52 / 12 * rate)` over the rationals,
rounding half up as `Math.round` does.  This definition follows the
spec's formula; the theorems for claim C2 compare it with the code-side
definitions above. -/
def specConvertWeeklyToMonthly (amount : ℕ) (rate : ℚ) : ℤ :=
  ⌊(amount : ℚ) * 52 / 12 * rate + 1 / 2⌋

/-! ## The DOM model

The scripts read and write only these parts of the host tree: the child
lists, text node contents, the `data-test="price-display__price-method"`
attribute (tested, never written) and the `dataset.nzdConverted` flag
(tested and set to `"true"`, never cleared).  A first-child / next-sibling
tree over exactly these data is therefore a faithful projection of the
document. -/

/-- A DOM forest: `nil` ends a sibling list, `text s sib` is a text node,
`elem pd cv child sib` an element whose `data-test` attribute equals
`price-display__price-method` iff `pd` and whose `dataset.nzdConverted`
is set iff `cv`.  A single node is a tree whose top-level `sib` is
`nil`. -/
inductive Dom where
  | nil : Dom
  | text (s : List Char) (sib : Dom)
  | elem (pd cv : Bool) (child sib : Dom)
deriving DecidableEq

/-- `node.textContent`: concatenation of all text in the forest in
document order. -/
def textContent : Dom → List Char
  | .nil => []
  | .text s sib => s ++ textContent sib
  | .elem _ _ c sib => textContent c ++ textContent sib

/-- Number of text nodes in a forest — for an element `elem pd cv c sib`,
`countTexts c` is what the counting `TreeWalker(el, SHOW_TEXT)` of
`part_000` lines 162–164 computes. -/
def countTexts : Dom → ℕ
  | .nil => 0
  | .text _ sib => 1 + countTexts sib
  | .elem _ _ c sib => countTexts c + countTexts sib

/-- Does some text node of the forest match `PRICE_REGEX` on its own?
For an element's child forest this is the `hasFullMatch` loop of
`part_000` lines 153–158. -/
def anyStrictText : Dom → Bool
  | .nil => false
  | .text s sib => strictTest s || anyStrictText sib
  | .elem _ _ c sib => anyStrictText c || anyStrictText sib

/-- Content of the first text node (document order, whole forest) that
matches `PRICE_AMOUNT_REGEX` — the `priceNode` lookup of `part_000`
line 169. -/
def firstAmountText : Dom → Option (List Char)
  | .nil => none
  | .text s sib => if amountTest s then some s else firstAmountText sib
  | .elem _ _ c sib =>
    match firstAmountText c with
    | some s => some s
    | none => firstAmountText sib

/-- Whether the forest contains an amount-matching text node. -/
def hasAmountText (d : Dom) : Bool :=
  (firstAmountText d).isSome

/-- Rewrite the first amount-matching text node of the forest by
`s.replace(PRICE_AMOUNT_REGEX, tmpl)` (`part_000` line 185).  The node
chosen is exactly the one `firstAmountText` returns. -/
def rewriteFirstAmountTmpl (tmpl : List Char) : Dom → Dom
  | .nil => .nil
  | .text s sib =>
    if amountTest s then .text (amountReplaceTmpl tmpl s) sib
    else .text s (rewriteFirstAmountTmpl tmpl sib)
  | .elem pd cv c sib =>
    if hasAmountText c then .elem pd cv (rewriteFirstAmountTmpl tmpl c) sib
    else .elem pd cv c (rewriteFirstAmountTmpl tmpl sib)

/-- The per-week cleanup loops (`part_000` lines 95–97 and 188–190):
remove every element of the forest, at any depth, whose entire
`textContent` is whitespace around `per week`.  The JavaScript iterates a
`querySelectorAll("*")` snapshot in document order and calls `remove()`;
removing a node cannot change whether a disjoint later candidate matches
(their text is unchanged), and candidates inside a removed subtree are
detached no-ops, so a top-down structural sweep computes the same
result. -/
def removePerWeek : Dom → Dom
  | .nil => .nil
  | .text s sib => .text s (removePerWeek sib)
  | .elem pd cv c sib =>
    if isPerWeekOnly (textContent c) then removePerWeek sib
    else .elem pd cv (removePerWeek c) (removePerWeek sib)

/-! ## Rewritten-text templates -/

/-- The replacement text of passes 1 and 2 (`part_000` lines 132 and
179): `` `$${nzd.toLocaleString("en-NZ")}/wk · ${formatUsd(usd)}/mo` ``. -/
def replacementText (nzd : ℕ) (usd : ℤ) : List Char :=
  '$' :: localeNat nzd ++ "/wk ".toList ++ midDot :: ' ' :: formatUsd usd ++ "/mo".toList

/-- The fast-path rewritten text (`part_000` line 94) — the same template
with a trailing space. -/
def fpReplacementText (nzd : ℕ) (usd : ℤ) : List Char :=
  replacementText nzd usd ++ [' ']

/-! ## Layer 1: the sidebar fast path (`transformPriceDisplayElements`) -/

/-- Content of the first **direct** text child matching
`/\$[\d,]+/` — the `amountNode` lookup over `el.childNodes`
(`part_000` lines 84–86). -/
def firstDirectAmount : Dom → Option (List Char)
  | .nil => none
  | .text s sib => if amountTest s then some s else firstDirectAmount sib
  | .elem _ _ _ sib => firstDirectAmount sib

/-- Overwrite the content of the first direct amount-matching text child
(the assignment `amountNode.textContent = ...`, `part_000` line 94). -/
def setFirstDirectAmount (newContent : List Char) : Dom → Dom
  | .nil => .nil
  | .text s sib =>
    if amountTest s then .text newContent sib
    else .text s (setFirstDirectAmount newContent sib)
  | .elem pd cv c sib => .elem pd cv c (setFirstDirectAmount newContent sib)

/-- Processing of one fast-path container (`part_000` lines 82–98), as a
function of its `dataset.nzdConverted` flag and child forest; returns the
new flag and child forest.  Skips (leaving everything unchanged) when the
flag is set, when no direct text child matches `/\$[\d,]+/`, or when the
parse is `NaN`; otherwise converts: sets the flag, overwrites the amount
node with the rewritten text and removes the per-week elements below the
container. -/
def fpProcess (rnum : ℤ) (rden : ℕ) (cv : Bool) (child : Dom) : Bool × Dom :=
  if cv then (true, child)
  else
    match firstDirectAmount child with
    | none => (false, child)
    | some s =>
      match amountGroup s with
      | none => (false, child)
      | some g =>
        match parseAmount g with
        | none => (false, child)
        | some nzd =>
          let usd := nzdPerWeekToUsdPerMonth nzd rnum rden
          (true, removePerWeek (setFirstDirectAmount (fpReplacementText nzd usd) child))

/-- Walk a forest processing every `data-test="price-display__price-method"`
element (the `querySelectorAll` branch of `part_000` lines 76–81).  The
JavaScript collects the containers as a snapshot and processes them in
document order on the live tree; processing a container touches only its
direct text children and removes per-week-only elements, neither of which
can change another container's own flag, amount child, parse, or
per-week-only status (rewritten text always retains a `$`, and a removed
container has no `$` in its text, so its visit is a no-op) — hence the
order of processing between a container and the containers nested inside
it does not matter, and the structural bottom-up recursion below computes
the snapshot iteration's result. -/
def fpWalk (rnum : ℤ) (rden : ℕ) : Dom → Dom
  | .nil => .nil
  | .text s sib => .text s (fpWalk rnum rden sib)
  | .elem pd cv c sib =>
    if pd then
      let c1 := fpWalk rnum rden c
      let r := fpProcess rnum rden cv c1
      .elem pd r.1 r.2 (fpWalk rnum rden sib)
    else .elem pd cv (fpWalk rnum rden c) (fpWalk rnum rden sib)

/-- `transformPriceDisplayElements(root, rate)` (`part_000` lines 74–99)
applied to a single root node: when the root itself matches the selector,
the container list is `[root]` alone (line 78) and nested containers are
not visited; otherwise the list is `root.querySelectorAll(sel)`, i.e.
every container strictly inside the root. -/
def transformPriceDisplayElements (rnum : ℤ) (rden : ℕ) : Dom → Dom
  | .elem pd cv c sib =>
    if pd then
      let r := fpProcess rnum rden cv c
      .elem pd r.1 r.2 sib
    else .elem pd cv (fpWalk rnum rden c) sib
  | d => d

/-! ## Layer 2: the single-text-node pass

`part_000` lines 117–136: a `TreeWalker(root, SHOW_TEXT)` snapshot of all
text nodes below the root, visited in document order.  For each node the
code tests `PRICE_REGEX`, then `hasConvertedAncestor(tn.parentElement,
root.parentElement)` — the walk of lines 103–110, which checks the parent
element and every ancestor up to and including the root — then parses the
captured amount (a `NaN` parse returns before anything is written), then
sets `dataset.nzdConverted` on the parent element and splices the
replacement text over the first match.

The pass adds and removes no node, so the snapshot is just document
order; the only live state is the `nzdConverted` flags, which the pass
itself sets on the parents of rewritten nodes.  The recursion below
threads exactly that: `anc` says some element on the ancestor chain
(up to the scan root) is currently marked, `conv` is the current flag of
the immediate parent, and processing a text child can flip `conv` for
the siblings that follow it. -/

/-- Process the text children of an element whose ancestor-marked status
is `anc` and whose own flag is `conv`; returns the updated flag and
forest. -/
def pass1Forest (rnum : ℤ) (rden : ℕ) (anc conv : Bool) : Dom → Bool × Dom
  | .nil => (conv, .nil)
  | .text s sib =>
    match strictScan s with
    | none =>
      let r := pass1Forest rnum rden anc conv sib
      (r.1, .text s r.2)
    | some (pre, g, suf) =>
      if anc || conv then
        let r := pass1Forest rnum rden anc conv sib
        (r.1, .text s r.2)
      else
        match parseAmount g with
        | none =>
          let r := pass1Forest rnum rden anc conv sib
          (r.1, .text s r.2)
        | some nzd =>
          let usd := nzdPerWeekToUsdPerMonth nzd rnum rden
          let r := pass1Forest rnum rden anc true sib
          (r.1, .text (pre ++ replacementText nzd usd ++ suf) r.2)
  | .elem pd cv c sib =>
    let rc := pass1Forest rnum rden (anc || conv) cv c
    let rs := pass1Forest rnum rden anc conv sib
    (rs.1, .elem pd rc.1 rc.2 rs.2)

/-- The whole single-text-node pass on a root node.  `hasConvertedAncestor`
stops at `root.parentElement`, so ancestors above the root are never
consulted: the top call passes `anc = false` and the root's own flag. -/
def pass1Root (rnum : ℤ) (rden : ℕ) : Dom → Dom
  | .elem pd cv c sib =>
    let r := pass1Forest rnum rden false cv c
    .elem pd r.1 r.2 sib
  | d => d

/-! ## Layer 3: the split-element pass

`part_000` lines 142–191: a snapshot of the root plus all elements below
it, visited in document order, with guards evaluated on the live tree. -/

/-- The amount the split-element pass would convert for an element with
child forest `c`: the capture group of the first amount-matching text
node in the subtree (`priceNode`, lines 169–173), parsed (line 175). -/
def pass2Amount (c : Dom) : Option ℕ :=
  match firstAmountText c with
  | none => none
  | some s =>
    match amountGroup s with
    | none => none
    | some g => parseAmount g

/-- The guard chain of one split-element candidate (`part_000` lines
147–176), in source order: not under/carrying a converted mark (line
149), combined text matches `PRICE_REGEX` (line 151), no single
descendant text node matches it alone (lines 153–158), at most 6 text
nodes in the subtree (lines 162–166), and an amount node whose group
parses (lines 169–176). -/
def pass2Fires (anc cv : Bool) (c : Dom) : Bool :=
  !(anc || cv) && strictTest (textContent c) && !anyStrictText c &&
    decide (countTexts c ≤ 6) && (pass2Amount c).isSome

/-- The split-element pass over a forest, `anc` being the live marked
status of the ancestor chain up to the scan root.  When a candidate
fires, the code marks it (line 182), rewrites the price node through the
string-replacement template (line 185 — `GetSubstitution` applies, see
`getSubst`) and removes its per-week-only descendants (lines 188–190).
The snapshot also visits the fired element's descendants afterwards, but
every such visit hits the `hasConvertedAncestor` guard (the element is
now marked) and is a no-op, as is the visit of any element detached by
the cleanup (its text is whitespace and `per week`, so the
`PRICE_REGEX.test` guard fails); the recursion therefore leaves a fired
subtree as the rewrite left it.  A candidate that does not fire changes
nothing, and its descendants see `anc ∨ cv`. -/
def pass2Forest (rnum : ℤ) (rden : ℕ) (anc : Bool) : Dom → Dom
  | .nil => .nil
  | .text s sib => .text s (pass2Forest rnum rden anc sib)
  | .elem pd cv c sib =>
    if pass2Fires anc cv c then
      match pass2Amount c with
      | some nzd =>
        let usd := nzdPerWeekToUsdPerMonth nzd rnum rden
        let c2 := removePerWeek (rewriteFirstAmountTmpl (replacementText nzd usd) c)
        .elem pd true c2 (pass2Forest rnum rden anc sib)
      | none =>
        .elem pd cv (pass2Forest rnum rden (anc || cv) c) (pass2Forest rnum rden anc sib)
    else
      .elem pd cv (pass2Forest rnum rden (anc || cv) c) (pass2Forest rnum rden anc sib)

/-- The split-element pass on a root node: the candidate list is the root
itself (pushed at line 144) followed by the elements below it; the
root's siblings are outside the scanned subtree. -/
def pass2Root (rnum : ℤ) (rden : ℕ) : Dom → Dom
  | .elem pd cv c sib =>
    if pass2Fires false cv c then
      match pass2Amount c with
      | some nzd =>
        let usd := nzdPerWeekToUsdPerMonth nzd rnum rden
        let c2 := removePerWeek (rewriteFirstAmountTmpl (replacementText nzd usd) c)
        .elem pd true c2 sib
      | none => .elem pd cv (pass2Forest rnum rden cv c) sib
    else .elem pd cv (pass2Forest rnum rden cv c) sib
  | d => d

/-- `transformSubtree(root, rate)` (`part_000` lines 112–192): the fast
path, then the single-text-node pass, then the split-element pass.  Each
pass builds its snapshot after the previous pass has finished, which the
function composition reflects. -/
def transformSubtree (rnum : ℤ) (rden : ℕ) (d : Dom) : Dom :=
  pass2Root rnum rden (pass1Root rnum rden (transformPriceDisplayElements rnum rden d))

/-! ## The AUD annotation scripts, per-candidate step -/

/-- JavaScript `String.prototype.trim`. -/
def jsTrim (s : List Char) : List Char :=
  ((s.dropWhile isSpaceJs).reverse.dropWhile isSpaceJs).reverse

/-- The per-candidate conversion decision of `convertPricesOnPage`
(`realestate-aud-to-usd.user.js` lines 103–114, identically
`part_001` lines 95–108): a candidate already carrying `data-converted`
is skipped; otherwise the first `/\$([\d,]+)/` match of the trimmed text
is taken — later amounts in the same text are never looked at — its
group parsed, and the amount converted only when the parse is a number
greater than the sanity floor 50.  `some n` means
`insertConversionLabel(el, n)` runs and marks the element; `none` means
the candidate is skipped. -/
def audCandidateAmount (conv : Bool) (s : List Char) : Option ℕ :=
  if conv then none
  else
    match amountScan (jsTrim s) with
    | none => none
    | some (_, g, _) =>
      match parseAmount g with
      | none => none
      | some n => if 50 < n then some n else none

/-! ## The rate provider (`part_000` lines 14–57)

`localStorage` contents are modelled after parsing: `CacheState.rate` is
`parseFloat(localStorage.getItem(CACHE_KEY_RATE))` (`none` for a missing
item or a `NaN` parse), `CacheState.time` likewise for the timestamp.  A
network attempt is a `FetchOutcome`: `fail` covers a rejected `fetch` or
a `res.json()` that throws (both land in the `catch`), `ok v` a parsed
JSON body whose `rates.USD` field is `v` (`none` when the field or the
`rates` object is absent; a non-number JSON value in the field is not
modelled — no claim depends on it).  JavaScript truthiness of a number is
`≠ 0` (`NaN` is covered by `none`). -/

/-- `FALLBACK_RATE` (`part_000` line 17). -/
def FALLBACK_RATE : ℚ := 59 / 100

/-- `CACHE_TTL_MS` (`part_000` line 16): one hour. -/
def CACHE_TTL_MS : ℤ := 3600000

/-- Parsed cache contents. -/
structure CacheState where
  rate : Option ℚ
  time : Option ℤ
deriving DecidableEq

/-- Outcome of one network attempt. -/
inductive FetchOutcome where
  | fail : FetchOutcome
  | ok (usd : Option ℚ) : FetchOutcome
deriving DecidableEq

/-- `getCachedRate()` (`part_000` lines 28–37): returns the stored rate
iff it parses to a truthy number, the timestamp parses to a truthy
number, and the age is under the TTL (`if (rate && time && Date.now() -
time < CACHE_TTL_MS)`). -/
def getCachedRate (now : ℤ) (c : CacheState) : Option ℚ :=
  match c.rate, c.time with
  | some r, some t => if r ≠ 0 ∧ t ≠ 0 ∧ now - t < CACHE_TTL_MS then some r else none
  | _, _ => none

/-- `fetchRate()` (`part_000` lines 39–53): on a truthy `data.rates.USD`
persist it with the current time and return it; on a missing/zero field
or a thrown fetch/parse, return the fallback.  The result pairs the
returned rate with the cache write (`none` = no write). -/
def fetchRate (now : ℤ) (o : FetchOutcome) : ℚ × Option (ℚ × ℤ) :=
  match o with
  | .fail => (FALLBACK_RATE, none)
  | .ok none => (FALLBACK_RATE, none)
  | .ok (some u) => if u ≠ 0 then (u, some (u, now)) else (FALLBACK_RATE, none)

/-- `getRate()` (`part_000` lines 55–57): the cached rate if
`getCachedRate` produced one, otherwise the fetch result. -/
def getRate (now : ℤ) (c : CacheState) (o : FetchOutcome) : ℚ × Option (ℚ × ℤ) :=
  match getCachedRate now c with
  | some r => (r, none)
  | none => fetchRate now o

/-- The module-level rate update of the AUD scripts
(`realestate-aud-to-usd.user.js` lines 30–36, `part_001` lines 24–32):
the variable starts at the fallback and is reassigned only inside the
fetch callback, and only when `data.rates.USD` is truthy.  `resp = none`
models any event that is not a successful fetch response (no response,
parse failure): the rate is left unchanged. -/
def audUpdateRate (cur : ℚ) (resp : Option ℚ) : ℚ :=
  match resp with
  | some u => if u ≠ 0 then u else cur
  | none => cur

/-! ## The debounce (`part_000` lines 196–202, 222–234)

`debounce(fn, ms)` keeps one timer: each call clears the pending timer
and schedules `fn(...args)` — with **that call's** arguments — `ms`
later.  The `MutationObserver` callback collects the element roots added
by one observation batch and hands exactly that batch to the debounced
function.  A run is modelled by the time-ordered list of calls
`(time, roots)`; the result is the list of timer firings `(time, roots)`.
A pending timer fires when its scheduled time arrives before the next
call (for the bursts of the claims the gaps are shorter than the window,
so ties never arise). -/

/-- One debounced run starting from a pending timer state. -/
def debounceRun (ms : ℕ) : Option (ℕ × List ℕ) → List (ℕ × List ℕ) → List (ℕ × List ℕ)
  | some p, [] => [p]
  | none, [] => []
  | some (ft, b), (t, a) :: rest =>
    if ft ≤ t then (ft, b) :: debounceRun ms (some (t + ms, a)) rest
    else debounceRun ms (some (t + ms, a)) rest
  | none, (t, a) :: rest => debounceRun ms (some (t + ms, a)) rest

/-- A debounced run from the idle state. -/
def debounceCalls (ms : ℕ) (calls : List (ℕ × List ℕ)) : List (ℕ × List ℕ) :=
  debounceRun ms none calls

/-! ## The fallback sweep (`part_000` lines 240–247)

`lastScrollTime` starts at the initialization time and is set to the
event time by every scroll; the interval fires at `init + 1500 * (k+1)`
for `k = 0, 1, …`, and the callback re-scans iff
`Date.now() - lastScrollTime ≤ SWEEP_IDLE_MS` (otherwise it returns at
line 245 without touching the tree). -/

/-- `SWEEP_INTERVAL_MS` (`part_000` line 240). -/
def SWEEP_INTERVAL_MS : ℕ := 1500

/-- `SWEEP_IDLE_MS` (`part_000` line 241). -/
def SWEEP_IDLE_MS : ℕ := 10000

/-- Time of the `k`-th interval tick (`setInterval` fires first after one
full period). -/
def sweepTickTime (init k : ℕ) : ℕ :=
  init + SWEEP_INTERVAL_MS * (k + 1)

/-- Value of `lastScrollTime` at time `t`, given the initialization time
and the (unordered) list of scroll-event times. -/
def lastScrollTime (init : ℕ) (scrolls : List ℕ) (t : ℕ) : ℕ :=
  (scrolls.filter (fun s => s ≤ t)).foldl max init

/-- Whether the `k`-th tick performs a re-scan (`part_000` line 245). -/
def sweepFires (init : ℕ) (scrolls : List ℕ) (k : ℕ) : Bool :=
  sweepTickTime init k - lastScrollTime init scrolls (sweepTickTime init k) ≤ SWEEP_IDLE_MS

/-! ## Concrete trees used by the counterexamples and witnesses -/

/-- The `dataset.nzdConverted` flag of a root node. -/
def rootMark : Dom → Bool
  | .elem _ cv _ _ => cv
  | _ => false

/-- A single element whose text is `$0 per week`. -/
def zeroPriceNode : Dom :=
  .elem false false (.text "$0 per week".toList .nil) .nil

/-- A converted (marked) element containing an unconverted
`data-test="price-display__price-method"` container: the marked ancestor
wraps a fast-path container holding the bare amount `$560 ` and a child
element whose whole text is a no-break space and `per week`. -/
def markedAncestorTree : Dom :=
  .elem false true
    (.elem true false
      (.text "$560 ".toList
        (.elem false false (.text (Char.ofNat 160 :: "per week".toList) .nil) .nil))
      .nil)
    .nil

/-- A tree on which the full pass is not idempotent.  The body holds
eight text nodes: a compact price widget (`$560 ` with `per`/` week`
split over an inner element) followed by the sibling texts `$700`,
` per week`, `x`, `y`.  In the first pass the body itself is skipped by
the 6-text-node bound, the widget fires and its per-week element (two
text nodes) is removed; the second pass then sees a 5-text-node body
whose combined text still contains `$700 per week` and fires on the
body. -/
def idemBreakTree : Dom :=
  .elem false false
    (.elem false false
      (.text "$560 ".toList
        (.elem false false (.text "per".toList (.text " week".toList .nil)) .nil))
      (.text "$700".toList
        (.text " per week".toList (.text "x".toList (.text "y".toList .nil)))))
    .nil

/-- Child forest with seven text nodes whose combined text matches the
strict price pattern — a wide container in the sense of the split-element
bound. -/
def wideContainerChildren : Dom :=
  .text "$5".toList
    (.text " per week".toList
      (.text "a".toList
        (.text "b".toList
          (.text "c".toList
            (.text "d".toList (.text "e".toList .nil))))))

/-- Child forest of a fast-path container whose amount text holds two
dollar amounts (a range). -/
def rangePriceChildren : Dom :=
  .text "$570 - $620".toList .nil

/-! ## Helper lemmas -/

/-- Below a marked ancestor the single-text-node pass is the identity:
every text node hits the `hasConvertedAncestor` guard. -/
theorem pass1Forest_of_marked (rnum : ℤ) (rden : ℕ) (cv : Bool) (c : Dom) :
    pass1Forest rnum rden true cv c = (cv, c) := by
  induction c generalizing cv with
  | nil => simp [pass1Forest]
  | text s sib ih =>
    rcases h : strictScan s with _ | ⟨pre, g, suf⟩ <;> simp [pass1Forest, h, ih]
  | elem pd cv2 c2 sib ihc ihs => simp [pass1Forest, ihc, ihs]

/-- Below a marked ancestor the split-element pass is the identity:
every candidate hits the `hasConvertedAncestor` guard. -/
theorem pass2Forest_of_marked (rnum : ℤ) (rden : ℕ) (c : Dom) :
    pass2Forest rnum rden true c = c := by
  induction c with
  | nil => simp [pass2Forest]
  | text s sib ih => simp [pass2Forest, ih]
  | elem pd cv c2 sib ihc ihs =>
    have hf : pass2Fires true cv c2 = false := by simp [pass2Fires]
    simp [pass2Forest, hf, ihc, ihs]

/-- Scanning for the first dollar amount skips any dollar-free prefix. -/
theorem amountScan_append_no_dollar (u s : List Char) (h : ∀ c ∈ u, c ≠ '$') :
    amountScan (u ++ s) = (amountScan s).map (fun r => (u ++ r.1, r.2.1, r.2.2)) := by
  induction u with
  | nil =>
    rcases hs : amountScan s with _ | ⟨p, g, suf⟩ <;> simp [hs]
  | cons c u' ih =>
    have hc : c ≠ '$' := h c (by simp)
    have ih' := ih (fun x hx => h x (List.mem_cons_of_mem c hx))
    rcases hs : amountScan s with _ | ⟨p, g, suf⟩ <;>
      simp [amountScan, hc, ih', hs]

/-- A burst of debounced calls each arriving before the pending timer can
fire replaces the pending state and finally fires once, with the last
call's arguments. -/
theorem debounceRun_burst (ms : ℕ) :
    ∀ (cs : List (ℕ × List ℕ)) (t : ℕ) (a : List ℕ),
      List.Chain' (fun p q => p.1 ≤ q.1 ∧ q.1 < p.1 + ms) ((t, a) :: cs) →
      debounceRun ms (some (t + ms, a)) cs
        = [((cs.getLastD (t, a)).1 + ms, (cs.getLastD (t, a)).2)] := by
  intro cs
  induction cs with
  | nil => intro t a _; simp [debounceRun]
  | cons q cs' ih =>
    intro t a h
    obtain ⟨h1, h3⟩ := List.chain'_cons.mp h
    obtain ⟨t2, a2⟩ := q
    have hlt : ¬ (t + ms ≤ t2) := by
      have := h1.2
      omega
    rw [List.getLastD_cons]
    simpa [debounceRun, hlt] using ih t2 a2 h3

/-- A fold of `max` stays below a bound that every input and the seed
stay below (stated with an additive offset, matching the sweep's idle
comparison). -/
theorem foldlMax_add_lt (T c : ℕ) :
    ∀ (l : List ℕ) (i : ℕ), i + c < T → (∀ x ∈ l, x + c < T) →
      l.foldl max i + c < T := by
  intro l
  induction l with
  | nil => intro i hi _; simpa using hi
  | cons x l' ih =>
    intro i hi hx
    have hlx : ∀ y ∈ l', y + c < T := fun y hy => hx y (List.mem_cons_of_mem x hy)
    have hmx : max i x + c < T := by
      have := hx x (by simp)
      omega
    simpa using ih (max i x) hmx hlx

/-- The fallback constant is not zero. -/
theorem fallback_ne_zero : FALLBACK_RATE ≠ 0 := by
  norm_num [FALLBACK_RATE]

/-- The fallback constant is positive. -/
theorem fallback_pos : 0 < FALLBACK_RATE := by
  norm_num [FALLBACK_RATE]

/-! ## Claim theorems -/

/-- Claim C2, counterexample to the stated example value: for amount 560
and rate 0.59 the converter returns 1432, not the claimed 1430
(exactly, `560 * 52 / 12 * 0.59 = 1431.73…`, which `Math.round` takes to
1432; the double-precision evaluation rounds to the same integer). -/
theorem C2_example_value_counterexample :
    nzdPerWeekToUsdPerMonth 560 59 100 = 1432 ∧
    nzdPerWeekToUsdPerMonth 560 59 100 ≠ 1430 := by
  decide

/-- Claim C2 as amended: for every non-negative integer amount and every
rate `rnum / rden`, both weekly-to-monthly converters return
`round(amount * 52 / 12 * rate)` — the spec formula over the exact
rationals, rounding half up as `Math.round` does — and in particular for
amount 560 and rate 0.59 they return 1432. -/
theorem C2_converter_formula_amended :
    (∀ (amount : ℕ) (rnum : ℤ) (rden : ℕ), 0 < rden →
      nzdPerWeekToUsdPerMonth amount rnum rden
        = specConvertWeeklyToMonthly amount ((rnum : ℚ) / (rden : ℚ))) ∧
    (∀ (amount : ℕ) (rnum : ℤ) (rden : ℕ), 0 < rden →
      audPerWeekToUsdPerMonth amount rnum rden
        = specConvertWeeklyToMonthly amount ((rnum : ℚ) / (rden : ℚ))) ∧
    nzdPerWeekToUsdPerMonth 560 59 100 = 1432 := by
  have key : ∀ (a : ℕ) (rn : ℤ) (rd : ℕ), 0 < rd →
      nzdPerWeekToUsdPerMonth a rn rd
        = specConvertWeeklyToMonthly a ((rn : ℚ) / (rd : ℚ)) := by
    intro a rn rd h
    have hrd : ((rd : ℚ)) ≠ 0 := by positivity
    have key2 : (a : ℚ) * 52 / 12 * ((rn : ℚ) / (rd : ℚ)) + 1 / 2
        = ((2 * ((a : ℤ) * 52 * rn) + 12 * (rd : ℤ) : ℤ) : ℚ) / (((24 * rd : ℕ)) : ℚ) := by
      push_cast
      field_simp
      ring
    unfold specConvertWeeklyToMonthly
    rw [key2, Rat.floor_intCast_div_natCast]
    unfold nzdPerWeekToUsdPerMonth jsRound
    push_cast
    ring_nf
  exact ⟨key, key, by decide⟩

/-- Witness for the amended C2 theorem at amount 560 and rate 59/100. -/
theorem C2_converter_formula_amended_witness :
    nzdPerWeekToUsdPerMonth 560 59 100
      = specConvertWeeklyToMonthly 560 (((59 : ℤ) : ℚ) / ((100 : ℕ) : ℚ)) :=
  C2_converter_formula_amended.1 560 59 100 (by decide)

/-- Claim C5 (confirmed): an element whose subtree holds more than 6 text
nodes is never selected as a split-element anchor — the candidate guard
is false, so the pass leaves the element unfired and unmarked and merely
recurses into its children and siblings — even when its combined text
matches the strict price pattern. -/
theorem C5_text_node_bound (rnum : ℤ) (rden : ℕ) (anc pd cv : Bool)
    (c sib : Dom) (h : 6 < countTexts c) :
    pass2Fires anc cv c = false ∧
    pass2Forest rnum rden anc (.elem pd cv c sib)
      = .elem pd cv (pass2Forest rnum rden (anc || cv) c)
          (pass2Forest rnum rden anc sib) := by
  have hf : pass2Fires anc cv c = false := by
    have hd : decide (countTexts c ≤ 6) = false := by
      simp only [decide_eq_false_iff_not]
      omega
    simp [pass2Fires, hd]
  exact ⟨hf, by simp [pass2Forest, hf]⟩

/-- Witness for C5: a seven-text-node forest whose combined text matches
the strict pattern is skipped by the split-element candidate guard. -/
theorem C5_text_node_bound_witness :
    pass2Fires false false wideContainerChildren = false ∧
    pass2Forest 59 100 false (.elem false false wideContainerChildren .nil)
      = .elem false false (pass2Forest 59 100 (false || false) wideContainerChildren)
          (pass2Forest 59 100 false .nil) :=
  C5_text_node_bound 59 100 false false false wideContainerChildren .nil (by decide)

/-- Claim C4, counterexample: the fast path checks only the candidate
container's own marker, not its ancestors, so a strict descendant of a
marked element is mutated.  `markedAncestorTree` is a marked element
wrapping an unconverted `price-display__price-method` container; the full
pass rewrites the container's amount text, marks it, and removes its
per-week child — a mutation strictly below the marked element. -/
theorem C4_fast_path_counterexample :
    rootMark markedAncestorTree = true ∧
    transformSubtree 59 100 markedAncestorTree
      = .elem false true
          (.elem true true
            (.text ("$560/wk ".toList ++ midDot :: " US$1,432/mo ".toList) .nil)
            .nil)
          .nil ∧
    transformSubtree 59 100 markedAncestorTree ≠ markedAncestorTree := by
  decide

/-- Claim C4 as amended: an ancestor's processed marker protects all its
descendants from the single-text-node pass and from the split-element
pass — below a marked element both passes are the identity — but not
from the fast path, which tests only the candidate container's own
marker (see the counterexample). -/
theorem C4_marker_inheritance_amended :
    (∀ (rnum : ℤ) (rden : ℕ) (cv : Bool) (c : Dom),
      pass1Forest rnum rden true cv c = (cv, c)) ∧
    (∀ (rnum : ℤ) (rden : ℕ) (c : Dom), pass2Forest rnum rden true c = c) :=
  ⟨pass1Forest_of_marked, pass2Forest_of_marked⟩

/-- Claim C6, counterexample: an amount of 0 is **not** rejected by the
NZD script — the only guard is `isNaN` — so `$0 per week` is parsed to 0
and converted (to `$0/wk · US$0/mo`), where the claim says the candidate
is skipped and nothing mutated. -/
theorem C6_zero_amount_counterexample :
    transformSubtree 59 100 zeroPriceNode
      = .elem false true (.text ("$0/wk ".toList ++ midDot :: " US$0/mo".toList) .nil) .nil ∧
    transformSubtree 59 100 zeroPriceNode ≠ zeroPriceNode := by
  decide

/-- Claim C6 as amended: amount normalization strips the thousands
separators and parses the remaining digits as an integer; the parse is
rejected exactly when it is non-numeric, i.e. when no digit remains
after stripping.  Non-positive values are not rejected: `0` parses to
`some 0`, and a `$0 per week` text node is converted by the
single-text-node pass (the sanity floor `> 50` exists only in the AUD
variants). -/
theorem C6_parse_guard_amended :
    (∀ g : List Char, parseAmount g = none ↔ g.filter (fun c => c ≠ ',') = []) ∧
    parseAmount ['0'] = some 0 ∧
    (∀ (rnum : ℤ) (rden : ℕ), 0 < rden →
      pass1Forest rnum rden false false (.text "$0 per week".toList .nil)
        = (true, .text (replacementText 0 0) .nil)) := by
  refine ⟨?_, by decide, ?_⟩
  · intro g
    by_cases hg : (g.filter (fun c => c ≠ ',')).isEmpty <;>
      simp_all [parseAmount, List.isEmpty_iff]
  · intro rnum rden h
    have h1 : strictScan ['$', '0', ' ', 'p', 'e', 'r', ' ', 'w', 'e', 'e', 'k']
        = some ([], ['0'], []) := by decide
    have h3 : parseAmount ['0'] = some 0 := by decide
    have h2 : nzdPerWeekToUsdPerMonth 0 rnum rden = 0 := by
      unfold nzdPerWeekToUsdPerMonth jsRound
      have hnum : 2 * (((0 : ℕ) : ℤ) * 52 * rnum) + 12 * (rden : ℤ) = 12 * (rden : ℤ) := by
        push_cast
        ring
      rw [hnum]
      apply Int.ediv_eq_zero_of_lt <;> omega
    simp [pass1Forest, h1, h3, h2]

/-- Witness for the amended C6 theorem: at rate 59/100 the
single-text-node pass converts the `$0 per week` node and marks its
parent. -/
theorem C6_parse_guard_amended_witness :
    pass1Forest 59 100 false false (.text "$0 per week".toList .nil)
      = (true, .text (replacementText 0 0) .nil) :=
  C6_parse_guard_amended.2.2 59 100 (by decide)

/-- Claim C10 (confirmed): when a candidate's text holds several dollar
amounts, the converters take exactly the first.  The scanner returns the
first amount's group (`570`) for any dollar-free prefix, with the later
`$620` left in the unexamined suffix; the AUD per-candidate step converts
570; and the fast path, whose amount node holds `$570 - $620`, converts
570 and overwrites the node (the later amount is never parsed). -/
theorem C10_first_amount_only :
    (∀ u : List Char, (∀ c ∈ u, c ≠ '$') →
      amountScan (u ++ "$570 - $620".toList)
        = some (u, "570".toList, " - $620".toList)) ∧
    audCandidateAmount false "$570 - $620".toList = some 570 ∧
    fpProcess 59 100 false rangePriceChildren
      = (true, .text (fpReplacementText 570 1457) .nil) := by
  refine ⟨?_, by decide, by decide⟩
  intro u h
  have base : amountScan "$570 - $620".toList
      = some ([], "570".toList, " - $620".toList) := by decide
  rw [amountScan_append_no_dollar u _ h, base]
  simp

/-- Witness for C10 at the prefix `Rent `. -/
theorem C10_first_amount_only_witness :
    amountScan ("Rent ".toList ++ "$570 - $620".toList)
      = some ("Rent ".toList, "570".toList, " - $620".toList) :=
  C10_first_amount_only.1 "Rent ".toList (by decide)

/-- Claim C3, counterexample: two mutation events 100 ms apart (window
200 ms) produce exactly one firing, but it carries only the second
event's roots — root `1`, added by the first event, is covered by no
firing, where the claim promises the union of the added roots. -/
theorem C3_debounce_counterexample :
    debounceCalls 200 [(0, [1]), (100, [2])] = [(300, [2])] ∧
    ∀ p ∈ debounceCalls 200 [(0, [1]), (100, [2])], 1 ∉ p.2 := by
  decide

/-- Claim C3 as amended: for every burst of `N ≥ 1` debounced calls with
gaps shorter than the window, the handler fires exactly once, one window
after the last call — but with the **last** call's argument list only:
`debounce` replaces the pending arguments on every call, so roots added
by the earlier events of the burst are dropped, not unioned. -/
theorem C3_debounce_single_firing (ms : ℕ) (c : ℕ × List ℕ) (cs : List (ℕ × List ℕ))
    (h : List.Chain' (fun p q => p.1 ≤ q.1 ∧ q.1 < p.1 + ms) (c :: cs)) :
    debounceCalls ms (c :: cs) = [((cs.getLastD c).1 + ms, (cs.getLastD c).2)] := by
  obtain ⟨t, a⟩ := c
  unfold debounceCalls
  rw [show debounceRun ms none ((t, a) :: cs) = debounceRun ms (some (t + ms, a)) cs from rfl]
  exact debounceRun_burst ms cs t a h

/-- Witness for the amended C3 theorem: the two-call burst fires once at
300 ms with the last call's roots. -/
theorem C3_debounce_single_firing_witness :
    debounceCalls 200 [(0, [1]), (100, [2])] = [(300, [2])] :=
  C3_debounce_single_firing 200 (0, [1]) [(100, [2])]
    (List.chain'_pair.mpr (by decide))

/-- Claim C9 (confirmed): consecutive sweep ticks are a full interval
(1500 ms) apart, so the fallback sweep fires at most once per interval;
and at any tick lying more than the idle bound (10 s) after the
initialization time and after every observed scroll, the callback
returns without re-scanning. -/
theorem C9_sweep_interval_and_idle :
    (∀ (init k k' : ℕ), k < k' →
      sweepTickTime init k + SWEEP_INTERVAL_MS ≤ sweepTickTime init k') ∧
    (∀ (init : ℕ) (scrolls : List ℕ) (k : ℕ),
      init + SWEEP_IDLE_MS < sweepTickTime init k →
      (∀ s ∈ scrolls, s + SWEEP_IDLE_MS < sweepTickTime init k) →
      sweepFires init scrolls k = false) := by
  constructor
  · intro init k k' hk
    unfold sweepTickTime SWEEP_INTERVAL_MS
    omega
  · intro init scrolls k hinit hscroll
    unfold sweepFires
    simp only [decide_eq_false_iff_not]
    have hbound : lastScrollTime init scrolls (sweepTickTime init k) + SWEEP_IDLE_MS
        < sweepTickTime init k := by
      unfold lastScrollTime
      exact foldlMax_add_lt _ _ _ init hinit
        (fun x hx => hscroll x (List.mem_of_mem_filter hx))
    omega

/-- Witness for C9: tick 10 (at 16500 ms) with one scroll at 100 ms lies
more than 10 s after all activity, and the sweep is suppressed; ticks 0
and 1 are a full interval apart. -/
theorem C9_sweep_interval_and_idle_witness :
    sweepTickTime 0 0 + SWEEP_INTERVAL_MS ≤ sweepTickTime 0 1 ∧
    sweepFires 0 [100] 10 = false :=
  ⟨C9_sweep_interval_and_idle.1 0 0 1 (by decide),
   C9_sweep_interval_and_idle.2 0 [100] 10 (by decide) (by decide)⟩

/-- Claim C7, counterexample: with a cached rate of 0 and a fresh
timestamp, a cached rate exists and is younger than the window, so the
claim says `getRate` returns it; the code's truthiness guard
(`if (rate && time && …)`) treats the stored 0 as absent and falls back
to the fetch path instead (here a failing fetch, so the fallback
constant — which is not the cached 0 — is returned). -/
theorem C7_cached_zero_counterexample :
    getRate 50000 ⟨some 0, some 49000⟩ .fail = (FALLBACK_RATE, none) ∧
    FALLBACK_RATE ≠ 0 := by
  refine ⟨?_, fallback_ne_zero⟩
  simp [getRate, getCachedRate, fetchRate]

/-- Claim C7 as amended: the cache is used exactly when both stored
entries parse to truthy (nonzero) numbers and the age is within the
window — positivity is not required, so the guard is truthiness, not
existence; otherwise the code fetches: a truthy fetched value is
persisted with the current time and returned, and a failing fetch or a
missing field yields the fallback constant with no write.  Every case
returns a value (the model is a total function — nothing throws). -/
theorem C7_rate_resolution_amended :
    (∀ (now : ℤ) (c : CacheState) (o : FetchOutcome) (r : ℚ) (t : ℤ),
      c.rate = some r → c.time = some t → r ≠ 0 → t ≠ 0 →
      now - t < CACHE_TTL_MS → getRate now c o = (r, none)) ∧
    (∀ (now : ℤ) (c : CacheState), getCachedRate now c = none →
      getRate now c .fail = (FALLBACK_RATE, none)) ∧
    (∀ (now : ℤ) (c : CacheState), getCachedRate now c = none →
      getRate now c (.ok none) = (FALLBACK_RATE, none)) ∧
    (∀ (now : ℤ) (c : CacheState) (u : ℚ), getCachedRate now c = none → u ≠ 0 →
      getRate now c (.ok (some u)) = (u, some (u, now))) := by
  refine ⟨?_, ?_, ?_, ?_⟩
  · intro now c o r t hr ht h1 h2 h3
    obtain ⟨cr, ct⟩ := c
    simp only at hr ht
    subst hr ht
    simp [getRate, getCachedRate, h1, h2, h3]
  · intro now c hc
    simp [getRate, hc, fetchRate]
  · intro now c hc
    simp [getRate, hc, fetchRate]
  · intro now c u hc hu
    simp [getRate, hc, fetchRate, hu]

/-- Witness for the amended C7 theorem: a fresh truthy cache is
returned; an empty cache falls back on failure and adopts a truthy
fetched value on success. -/
theorem C7_rate_resolution_amended_witness :
    getRate 10 ⟨some 3, some 5⟩ .fail = (3, none) ∧
    getRate 10 ⟨none, none⟩ .fail = (FALLBACK_RATE, none) ∧
    getRate 10 ⟨none, none⟩ (.ok (some 2)) = (2, some (2, 10)) :=
  ⟨C7_rate_resolution_amended.1 10 ⟨some 3, some 5⟩ .fail 3 5 rfl rfl
      (by decide) (by decide) (by decide),
   C7_rate_resolution_amended.2.1 10 ⟨none, none⟩ rfl,
   C7_rate_resolution_amended.2.2.2 10 ⟨none, none⟩ 2 rfl (by decide)⟩

/-- Claim C8, counterexample: a cache containing −5 with a fresh
timestamp passes the truthiness guard, so the resolved rate is −5 — not
strictly positive, refuting the invariant for arbitrary cache
content. -/
theorem C8_negative_cache_counterexample :
    (getRate 50000 ⟨some (-5), some 49000⟩ .fail).1 = -5 ∧
    ¬ (0 < (getRate 50000 ⟨some (-5), some 49000⟩ .fail).1) := by
  decide

/-- Claim C8 as amended: the resolved rate is always truthy (never 0),
and it is strictly positive provided every cached value and every
accepted remote value is positive (the fallback constant is); the guards
check truthiness, not positivity, so a negative stored or fetched value
is accepted as-is (see the counterexample).  In the AUD scripts the
module-level rate changes only when a fetch response arrives with a
truthy field: any other event leaves it untouched. -/
theorem C8_rate_positivity_amended :
    (∀ (now : ℤ) (c : CacheState) (o : FetchOutcome), (getRate now c o).1 ≠ 0) ∧
    (∀ (now : ℤ) (c : CacheState) (o : FetchOutcome),
      (∀ r, c.rate = some r → 0 < r) → (∀ u, o = .ok (some u) → 0 < u) →
      0 < (getRate now c o).1) ∧
    (∀ cur : ℚ, audUpdateRate cur none = cur) ∧
    (∀ (cur u : ℚ), u ≠ 0 → audUpdateRate cur (some u) = u) := by
  have hfetch_ne : ∀ (now : ℤ) (o : FetchOutcome), (fetchRate now o).1 ≠ 0 := by
    intro now o
    match o with
    | .fail => exact fallback_ne_zero
    | .ok none => exact fallback_ne_zero
    | .ok (some u) =>
      by_cases hu : u = 0 <;> simp [fetchRate, hu, fallback_ne_zero]
  have hfetch_pos : ∀ (now : ℤ) (o : FetchOutcome),
      (∀ u, o = .ok (some u) → 0 < u) → 0 < (fetchRate now o).1 := by
    intro now o ho
    match o with
    | .fail => exact fallback_pos
    | .ok none => exact fallback_pos
    | .ok (some u) =>
      have hu : 0 < u := ho u rfl
      have hu' : u ≠ 0 := ne_of_gt hu
      simpa [fetchRate, hu'] using hu
  refine ⟨?_, ?_, fun _ => rfl, ?_⟩
  · intro now c o
    obtain ⟨cr, ct⟩ := c
    match cr, ct with
    | some r, some t =>
      by_cases hcond : r ≠ 0 ∧ t ≠ 0 ∧ now - t < CACHE_TTL_MS
      · simp [getRate, getCachedRate, hcond, hcond.1]
      · simpa [getRate, getCachedRate, hcond] using hfetch_ne now o
    | some r, none => simpa [getRate, getCachedRate] using hfetch_ne now o
    | none, some t => simpa [getRate, getCachedRate] using hfetch_ne now o
    | none, none => simpa [getRate, getCachedRate] using hfetch_ne now o
  · intro now c o hcache hfetch
    obtain ⟨cr, ct⟩ := c
    match cr, ct with
    | some r, some t =>
      by_cases hcond : r ≠ 0 ∧ t ≠ 0 ∧ now - t < CACHE_TTL_MS
      · simpa [getRate, getCachedRate, hcond] using hcache r rfl
      · simpa [getRate, getCachedRate, hcond] using hfetch_pos now o hfetch
    | some r, none => simpa [getRate, getCachedRate] using hfetch_pos now o hfetch
    | none, some t => simpa [getRate, getCachedRate] using hfetch_pos now o hfetch
    | none, none => simpa [getRate, getCachedRate] using hfetch_pos now o hfetch
  · intro cur u hu
    simp [audUpdateRate, hu]

/-- Witness for the amended C8 theorem: with an empty cache and a failed
fetch the resolved rate (the fallback) is positive, and a truthy fetched
AUD rate replaces the current one. -/
theorem C8_rate_positivity_amended_witness :
    0 < (getRate 10 ⟨none, none⟩ .fail).1 ∧ audUpdateRate 1 (some 2) = 2 :=
  ⟨C8_rate_positivity_amended.2.1 10 ⟨none, none⟩ .fail
      (fun r h => nomatch h) (fun u h => nomatch h),
   C8_rate_positivity_amended.2.2.2 1 2 (by decide)⟩

/-- Claim C1, counterexample: the full pass is not idempotent.  On
`idemBreakTree` (eight text nodes; see its doc comment) the first run
skips the body by the text-node bound and converts only the inner
widget, removing two per-week text nodes; the body stays unmarked, now
has five text nodes, and its combined text still contains
`$700 per week`, so the second run fires on the body and mutates the
tree again. -/
theorem C1_idempotence_counterexample :
    transformSubtree 59 100 (transformSubtree 59 100 idemBreakTree)
      ≠ transformSubtree 59 100 idemBreakTree ∧
    rootMark (transformSubtree 59 100 idemBreakTree) = false := by
  decide

/-- Claim C1 as amended: no layer ever fires on an element that carries
the processed marker — the fast path returns a marked container
unchanged, the single-text-node pass rewrites nothing under a marked
parent, the split-element candidate guard is false for a marked element,
and the AUD per-candidate step skips a marked candidate — and every
anchor a layer fires on carries the marker afterwards (a fired
split-element candidate comes out marked, and a converting fast-path
container always reports the marker set).  Mutation-freeness of a whole
second run does **not** follow: an element skipped only by the text-node
bound can fall under the bound after a nested conversion removes
per-week elements, and is then converted in the second run (see the
counterexample). -/
theorem C1_marked_elements_skipped_amended :
    (∀ (rnum : ℤ) (rden : ℕ) (c : Dom), fpProcess rnum rden true c = (true, c)) ∧
    (∀ (rnum : ℤ) (rden : ℕ) (anc : Bool) (c : Dom),
      pass1Forest rnum rden anc true c = (true, c)) ∧
    (∀ (anc : Bool) (c : Dom), pass2Fires anc true c = false) ∧
    (∀ (rnum : ℤ) (rden : ℕ) (anc pd cv : Bool) (c sib : Dom),
      pass2Fires anc cv c = true →
      rootMark (pass2Forest rnum rden anc (.elem pd cv c sib)) = true) ∧
    (∀ (rnum : ℤ) (rden : ℕ) (cv : Bool) (c : Dom) (s g : List Char) (n : ℕ),
      firstDirectAmount c = some s → amountGroup s = some g → parseAmount g = some n →
      (fpProcess rnum rden cv c).1 = true) ∧
    (∀ s : List Char, audCandidateAmount true s = none) := by
  refine ⟨?_, ?_, ?_, ?_, ?_, ?_⟩
  · intro rnum rden c
    simp [fpProcess]
  · intro rnum rden anc c
    induction c with
    | nil => simp [pass1Forest]
    | text s sib ih =>
      rcases h : strictScan s with _ | ⟨pre, g, suf⟩ <;> simp [pass1Forest, h, ih]
    | elem pd cv2 c2 sib ihc ihs =>
      simp [pass1Forest, pass1Forest_of_marked, ihs]
  · intro anc c
    simp [pass2Fires]
  · intro rnum rden anc pd cv c sib hfire
    have hs : (pass2Amount c).isSome = true := by
      have := hfire
      unfold pass2Fires at this
      simp only [Bool.and_eq_true] at this
      exact this.2
    rcases ha : pass2Amount c with _ | nzd
    · rw [ha] at hs
      simp at hs
    · simp [pass2Forest, hfire, ha, rootMark]
  · intro rnum rden cv c s g n h1 h2 h3
    by_cases hcv : cv <;> simp [fpProcess, hcv, h1, h2, h3]
  · intro s
    simp [audCandidateAmount]

/-- Witness for the amended C1 theorem: a firing split-element candidate
(`$560 ` with a `per week` child element) comes out marked, and the
fast-path container over `$570 - $620` reports the marker set after
converting. -/
theorem C1_marked_elements_skipped_amended_witness :
    rootMark (pass2Forest 59 100 false
        (.elem false false
          (.text "$560 ".toList (.elem false false (.text "per week".toList .nil) .nil))
          .nil)) = true ∧
    (fpProcess 59 100 false rangePriceChildren).1 = true :=
  ⟨C1_marked_elements_skipped_amended.2.2.2.1 59 100 false false false
      (.text "$560 ".toList (.elem false false (.text "per week".toList .nil) .nil))
      .nil (by decide),
   C1_marked_elements_skipped_amended.2.2.2.2.1 59 100 false rangePriceChildren
      "$570 - $620".toList "570".toList 570 (by decide) (by decide) (by decide)⟩
